import Mathlib

/- Verification of the MediTrack appointment slot-allocator logic
   (MediTrackApp/forms.py, views.py, models.py).

   Conventions of the embedding:
   * times of day are seconds since midnight (a `datetime.time` value at
     second granularity); dates are proleptic-Gregorian ordinals as used by
     `datetime.date.toordinal`, so `weekday d = (d + 6) % 7` matches Python's
     `date.weekday()` (ordinal 1 is a Monday, encoded 0);
   * integers from Python are `Int` where sign matters (time arithmetic,
     durations) and `Nat` where the source only ever holds non-negative
     values (dates, counts);
   * Python `%` on a positive modulus agrees with `Int.emod`;
   * a Python exception is an `Except` error value; a loop that can run
     forever is modelled with explicit fuel, returning `none` when the fuel
     is exhausted, so that termination is the statement
     `∃ fuel, result fuel ≠ none`. -/

namespace MediTrack

/-- Appointment.STATUS_CHOICES keys (models.py). -/
inductive Status
  | pending
  | confirmed
  | cancelled
  | completed
deriving DecidableEq, Repr

/-- The fields of the Appointment model (models.py) that the allocator
logic reads: doctor id, date ordinal, start time, status, optional end time. -/
structure Appointment where
  doctor : Nat
  date : Nat
  time : Nat
  status : Status
  endTime : Option Nat
deriving DecidableEq, Repr

/-- The two ValidationErrors raised by AppointmentBookingForm.clean
(forms.py): "You cannot book an appointment in the past." and
"This time slot is already booked.". -/
inductive BookingError
  | pastDate
  | slotConflict
deriving DecidableEq, Repr

/-- Appointment.objects.filter(doctor=doctor, date=date, time=time).exists()
(forms.py line 164): matches appointments of every status. This is also
exactly the membership test of the unique_doctor_slot UniqueConstraint on
fields ["doctor", "date", "time"] (models.py Appointment.Meta). -/
def slotTaken (store : List Appointment) (doctor date time : Nat) : Bool :=
  store.any fun a => a.doctor == doctor && a.date == date && a.time == time

/-- AppointmentBookingForm.clean (forms.py lines 155-166), with all three
fields present: first the past-date check against the clock, then the
slot-conflict query, short-circuiting by raising. -/
def bookingClean (store : List Appointment) (doctor date time today : Nat) :
    Except BookingError Unit :=
  if date < today then Except.error BookingError.pastDate
  else if slotTaken store doctor date time then Except.error BookingError.slotConflict
  else Except.ok ()

/-- Modelled from the spec's words for comparison: a conflict that only
counts non-cancelled appointments ("An existing non-cancelled appointment
exists with the same (doctorId, date, time)"). The source's check has no
such status filter. -/
def nonCancelledTaken (store : List Appointment) (doctor date time : Nat) : Bool :=
  store.any fun a =>
    a.doctor == doctor && a.date == date && a.time == time &&
      !(a.status == Status.cancelled)

/-- The status strings of Appointment.STATUS_CHOICES (models.py). -/
def STATUS_CHOICES : List String :=
  ["pending", "confirmed", "cancelled", "completed"]

/-- Django choice validation of the submitted status value: the raw string
is accepted exactly when it is one of STATUS_CHOICES. -/
def parseStatus (s : String) : Option Status :=
  if s = "pending" then some Status.pending
  else if s = "confirmed" then some Status.confirmed
  else if s = "cancelled" then some Status.cancelled
  else if s = "completed" then some Status.completed
  else none

/-- appointment_update_status (views.py lines 429-446) posting
AppointmentStatusForm (forms.py lines 223-229): a ModelForm on fields
["status", "end_time"] with no clean method, over a model (models.py
Appointment) with no clean method either, so validation is only the
per-field one: the submitted status must be a choice; end_time is optional
and unconstrained. On success form.save() stores the new status and
end_time unchanged. -/
def appointment_update_status (a : Appointment) (requested : String)
    (endT : Option Nat) : Option Appointment :=
  match parseStatus requested with
  | some s => some ⟨a.doctor, a.date, a.time, s, endT⟩
  | none => none

/- ------- time-string parsing (datetime.strptime(slot, "%H:%M:%S")) ------- -/

/-- Split a character list at ':' separators (the field structure that
strptime's "%H:%M:%S" pattern requires). -/
def splitColon : List Char → List (List Char)
  | [] => [[]]
  | c :: rest =>
      if c = ':' then [] :: splitColon rest
      else
        match splitColon rest with
        | [] => [[c]]
        | g :: gs => (c :: g) :: gs

def digitVal (c : Char) : Option Nat :=
  if c.isDigit then some (c.toNat - 48) else none

/-- A strptime numeric directive: one or two digits. -/
def parseTwoDigit : List Char → Option Nat
  | [c] => digitVal c
  | [c1, c2] =>
      match digitVal c1, digitVal c2 with
      | some a, some b => some (10 * a + b)
      | _, _ => none
  | _ => none

/-- datetime.strptime(s, "%H:%M:%S").time() in seconds since midnight;
none when strptime would raise ValueError. Each field is one or two
digits; %H accepts 0-23 and %M accepts 0-59. Although the %S directive's
regex matches up to 61, the datetime constructor that strptime then calls
raises "second must be in 0..59", so the call as a whole accepts only
seconds 0-59. -/
def parseTimeHMS (s : String) : Option Nat :=
  match splitColon s.data with
  | [h, m, sec] =>
      match parseTwoDigit h, parseTwoDigit m, parseTwoDigit sec with
      | some hv, some mv, some sv =>
          if hv ≤ 23 ∧ mv ≤ 59 ∧ sv ≤ 59 then
            some (hv * 3600 + mv * 60 + sv)
          else none
      | _, _, _ => none
  | _ => none

/- ------- calculate_available_slots (views.py lines 1727-1759) ------- -/

/-- The single exception kind the availability computation can raise:
the ValueError from the unguarded datetime.strptime call. -/
inductive PyError
  | valueError
deriving DecidableEq, Repr

/-- The DoctorProfile attributes the allocator reads (models.py):
available_days and available_time_slots, JSON list fields with list
defaults. (The views.py branch that json-decodes a legacy string value of
available_time_slots is not modelled; every claim quantifies over the
decoded list.) -/
structure DoctorProfile where
  available_days : List Nat
  available_time_slots : List String
deriving DecidableEq, Repr

/-- Python date.weekday() of a date given by its toordinal value:
ordinal 1 (0001-01-01) is a Monday, encoded 0. -/
def weekday (ordinal : Nat) : Nat := (ordinal + 6) % 7

/-- `doctor_profile.available_days or [1, 2, 3, 4, 5]`: an empty list is
falsy, so it falls back to the literal default. -/
def resolveDays (days : List Nat) : List Nat :=
  if days = [] then [1, 2, 3, 4, 5] else days

/-- `slots_raw or ["09:00:00"]`: an empty list falls back to the default
anchor. -/
def resolveSlots (slots : List String) : List String :=
  if slots = [] then ["09:00:00"] else slots

/-- The `while current_date <= end_date` loop of calculate_available_slots:
count the dates of the inclusive range whose weekday is in the resolved
availability list. An empty range (startD > endD) iterates zero times. -/
def countBusinessDays (days : List Nat) (startD endD : Nat) : Nat :=
  (List.range (endD + 1 - startD)).countP fun i => days.contains (weekday (startD + i))

/-- The `for slot in available_slots` loop: each slot string is fed to
datetime.strptime(slot, "%H:%M:%S") — which raises ValueError on a
malformed entry, aborting the whole computation — and then contributes
4 × business_days to the running total (the parsed value is unused). -/
def slotLoop (bd : Nat) : List String → Nat → Except PyError Nat
  | [], total => Except.ok total
  | s :: rest, total =>
      match parseTimeHMS s with
      | some _ => slotLoop bd rest (total + 4 * bd)
      | none => Except.error PyError.valueError

/-- calculate_available_slots(doctor_profile, start_date, end_date)
(views.py lines 1727-1759). There is no validation of the date range:
an inverted range simply yields zero business days. -/
def calculate_available_slots (p : DoctorProfile) (startD endD : Nat) :
    Except PyError Nat :=
  slotLoop (countBusinessDays (resolveDays p.available_days) startD endD)
    (resolveSlots p.available_time_slots) 0

/-- Modelled from the spec's words for comparison: the number of entries of
the resolved anchor list that parse as HH:MM:SS ("numberOfValidAnchors"). -/
def validAnchorCount (slots : List String) : Nat :=
  (resolveSlots slots).countP fun s => (parseTimeHMS s).isSome

/- ------- get_available_time_slots (views.py lines 1643-1658) ------- -/

def digitChar (n : Nat) : Char := Char.ofNat (48 + n)

/-- Two-digit zero-padded decimal rendering of a value below 100, as
strftime's %H and %M produce. -/
def pad2 (n : Nat) : String := String.mk [digitChar (n / 10 % 10), digitChar (n % 10)]

/-- current_time.strftime("%H:%M") for a time of t seconds since midnight. -/
def fmtHM (t : Nat) : String := pad2 (t / 3600) ++ ":" ++ pad2 (t % 3600 / 60)

/-- `(datetime.combine(today, start_time) + k * timedelta(minutes=d)).time()`
in seconds since midnight: Python's floor-mod by a positive modulus is
Int.emod. `step` is the step in seconds, 60 × slot_duration. -/
def slotTimeSec (startS step : Int) (k : Nat) : Int := (startS + k * step) % 86400

/-- The `while current_time.time() < end_time` loop of
get_available_time_slots, with explicit fuel: at iteration k the candidate
time is slotTimeSec startS step k; while it is strictly before endS, its
"%H:%M" rendering is appended unless present in booked_slots. `none` means
the fuel ran out before the loop condition failed. -/
def gatsRun (startS endS step : Int) (booked : List String) :
    Nat → Nat → List String → Option (List String)
  | 0, _, _ => none
  | fuel + 1, k, acc =>
      if slotTimeSec startS step k < endS then
        gatsRun startS endS step booked fuel (k + 1)
          (if booked.contains (fmtHM (slotTimeSec startS step k).toNat) then acc
           else acc ++ [fmtHM (slotTimeSec startS step k).toNat])
      else some acc

/-- get_available_time_slots(start_time, end_time, slot_duration,
booked_slots) (views.py lines 1643-1658), with fuel making the while loop
total: the returned value of the source function is `some l` for every
large enough fuel, and a run that is `none` for every fuel is a loop that
never terminates. No validation of slot_duration is performed. -/
def get_available_time_slots (startS endS dur : Int) (booked : List String)
    (fuel : Nat) : Option (List String) :=
  gatsRun startS endS (60 * dur) booked fuel 0 []

/-- The while loop of get_available_time_slots eventually exits: some
iteration reaches a candidate time at or past endS. Equivalent (see
gats_exits_iff) to the fuel-based run returning a value for some fuel. -/
def loopEventuallyExits (startS endS step : Int) : Prop :=
  ∃ k : Nat, endS ≤ slotTimeSec startS step k

/- ------- helper lemmas ------- -/

/-- When every slot string parses, the per-slot loop just adds 4 × bd per
entry to its accumulator. -/
theorem slotLoop_ok (bd : Nat) :
    ∀ (slots : List String) (init : Nat),
      (∀ s ∈ slots, (parseTimeHMS s).isSome) →
      slotLoop bd slots init = Except.ok (init + 4 * bd * slots.length) := by
  intro slots
  induction slots with
  | nil => intro init _; simp [slotLoop]
  | cons s rest ih =>
      intro init h
      have hs : (parseTimeHMS s).isSome := h s (by simp)
      obtain ⟨v, hv⟩ := Option.isSome_iff_exists.mp hs
      rw [slotLoop, hv, ih (init + 4 * bd) (fun t ht => h t (by simp [ht])),
        List.length_cons]
      have harith : init + 4 * bd + 4 * bd * rest.length
          = init + 4 * bd * (rest.length + 1) := by ring
      rw [harith]

/-- If the loop guard holds at every iteration, the candidate loop never
exits: every fuel value is exhausted. -/
theorem gatsRun_none (startS endS step : Int) (booked : List String)
    (h : ∀ k, slotTimeSec startS step k < endS) :
    ∀ (fuel k : Nat) (acc : List String),
      gatsRun startS endS step booked fuel k acc = none := by
  intro fuel
  induction fuel with
  | zero => intro k acc; rfl
  | succ f ih =>
      intro k acc
      rw [gatsRun, if_pos (h k)]
      exact ih (k + 1) _

/-- If the loop guard fails n iterations ahead, fuel n + 1 suffices for the
loop to exit with a value. -/
theorem gatsRun_some_of_exit (startS endS step : Int) (booked : List String) :
    ∀ (n k : Nat) (acc : List String),
      endS ≤ slotTimeSec startS step (k + n) →
      ∃ l, gatsRun startS endS step booked (n + 1) k acc = some l := by
  intro n
  induction n with
  | zero =>
      intro k acc h
      refine ⟨acc, ?_⟩
      rw [gatsRun, if_neg (not_lt.mpr (by simpa using h))]
  | succ m ih =>
      intro k acc h
      by_cases hc : slotTimeSec startS step k < endS
      · have h' : endS ≤ slotTimeSec startS step ((k + 1) + m) := by
          have : (k + 1) + m = k + (m + 1) := by omega
          rw [this]; exact h
        obtain ⟨l, hl⟩ := ih (k + 1)
          (if booked.contains (fmtHM (slotTimeSec startS step k).toNat) then acc
           else acc ++ [fmtHM (slotTimeSec startS step k).toNat]) h'
        exact ⟨l, by rw [gatsRun, if_pos hc]; exact hl⟩
      · exact ⟨acc, by rw [gatsRun, if_neg hc]⟩

/-- Whenever the candidate loop exits with a list, that list is the
accumulator followed by exactly the candidates of the first n iterations —
those strictly before endS, iteration n being the first at or past endS —
rendered with "%H:%M" and filtered by non-membership in booked. -/
theorem gatsRun_spec (startS endS step : Int) (booked : List String) :
    ∀ (fuel k : Nat) (acc l : List String),
      gatsRun startS endS step booked fuel k acc = some l →
      ∃ n, (∀ i, i < n → slotTimeSec startS step (k + i) < endS) ∧
        endS ≤ slotTimeSec startS step (k + n) ∧
        l = acc ++ (((List.range n).map fun i =>
            fmtHM (slotTimeSec startS step (k + i)).toNat).filter
              fun t => !booked.contains t) := by
  intro fuel
  induction fuel with
  | zero => intro k acc l h; exact absurd h (by simp [gatsRun])
  | succ f ih =>
      intro k acc l h
      rw [gatsRun] at h
      by_cases hc : slotTimeSec startS step k < endS
      · rw [if_pos hc] at h
        obtain ⟨n, h1, h2, h3⟩ := ih (k + 1) _ l h
        refine ⟨n + 1, ?_, ?_, ?_⟩
        · intro i hi
          cases i with
          | zero => simpa using hc
          | succ j =>
              have hj := h1 j (by omega)
              have : (k + 1) + j = k + (j + 1) := by omega
              rwa [this] at hj
        · have : (k + 1) + n = k + (n + 1) := by omega
          rwa [this] at h2
        · rw [h3, List.range_succ_eq_map, List.map_cons, List.map_map,
            List.filter_cons]
          have hmap : (List.range n).map
                ((fun i => fmtHM (slotTimeSec startS step (k + i)).toNat) ∘ Nat.succ)
              = (List.range n).map
                (fun i => fmtHM (slotTimeSec startS step ((k + 1) + i)).toNat) := by
            apply List.map_congr_left
            intro i _
            have hik : k + Nat.succ i = (k + 1) + i := by omega
            simp only [Function.comp]
            rw [hik]
          rw [hmap]
          by_cases hb : booked.contains (fmtHM (slotTimeSec startS step k).toNat)
          · have hb' : fmtHM (slotTimeSec startS step k).toNat ∈ booked :=
              List.mem_of_elem_eq_true hb
            simp [hb, hb']
          · have hb' : fmtHM (slotTimeSec startS step k).toNat ∉ booked :=
              fun hm => hb (List.elem_eq_true_of_mem hm)
            simp [hb, hb']
      · rw [if_neg hc] at h
        have hl : acc = l := by simpa using h
        refine ⟨0, by omega, by simpa using not_lt.mp hc, ?_⟩
        simp [← hl]

/-- The fuel-based run of the candidate loop returns a value for some fuel
exactly when the loop eventually exits. -/
theorem gats_exits_iff (startS endS step : Int) (booked : List String) :
    (∃ fuel l, gatsRun startS endS step booked fuel 0 [] = some l)
      ↔ loopEventuallyExits startS endS step := by
  constructor
  · rintro ⟨fuel, l, hl⟩
    obtain ⟨n, _, h2, _⟩ := gatsRun_spec startS endS step booked fuel 0 [] l hl
    exact ⟨n, by simpa using h2⟩
  · rintro ⟨k, hk⟩
    obtain ⟨l, hl⟩ :=
      gatsRun_some_of_exit startS endS step booked k 0 [] (by simpa using hk)
    exact ⟨k + 1, l, hl⟩

/- ------- claims ------- -/

/-- C1, counterexample: the claim says booking succeeds when no NON-CANCELLED
appointment occupies the slot, but the source's conflict query has no status
filter. With a store holding exactly one appointment at the requested
(doctor, date, time) whose status is cancelled, and a non-past date,
booking validation nevertheless fails with the slot-conflict error. -/
theorem c1_counterexample :
    bookingClean [⟨1, 101, 32400, Status.cancelled, none⟩] 1 101 32400 100
        = Except.error BookingError.slotConflict
      ∧ nonCancelledTaken [⟨1, 101, 32400, Status.cancelled, none⟩] 1 101 32400 = false
      ∧ ¬ (101 : Nat) < 100 :=
  ⟨rfl, by decide, by decide⟩

/-- C1, amended: booking validation checks in order, short-circuiting on the
first failure: a date earlier than the clock's current date fails with the
past-date error regardless of slot availability; otherwise, if an existing
appointment OF ANY STATUS has the same (doctorId, date, time), it fails with
the slot-conflict error; otherwise it succeeds. -/
theorem c1_checks_in_order_any_status :
    ∀ (store : List Appointment) (doctor date time today : Nat),
      (date < today →
        bookingClean store doctor date time today = Except.error BookingError.pastDate)
      ∧ (¬ date < today → slotTaken store doctor date time = true →
        bookingClean store doctor date time today = Except.error BookingError.slotConflict)
      ∧ (¬ date < today → slotTaken store doctor date time = false →
        bookingClean store doctor date time today = Except.ok ()) := by
  intro store doctor date time today
  refine ⟨fun h => ?_, fun h hc => ?_, fun h hc => ?_⟩
  · rw [bookingClean, if_pos h]
  · rw [bookingClean, if_neg h, if_pos hc]
  · rw [bookingClean, if_neg h, if_neg (by simp [hc])]

/-- C1, witness: on an empty store with a non-past date the booking
validation succeeds. -/
theorem c1_checks_witness :
    bookingClean [] 1 101 32400 100 = Except.ok () :=
  (c1_checks_in_order_any_status [] 1 101 32400 100).2.2 (by decide) (by decide)

/-- C2, counterexample: the claim says the completed → confirmed transition
request fails with an invalid-transition error, but neither
AppointmentStatusForm nor the Appointment model validates transitions: the
update is accepted and stores the new status. -/
theorem c2_counterexample :
    appointment_update_status ⟨1, 101, 32400, Status.completed, none⟩ "confirmed" none
      = some ⟨1, 101, 32400, Status.confirmed, none⟩ := rfl

/-- C2, amended: the status update operation enforces no state machine at
all: a requested status is accepted exactly when it is one of the four
STATUS_CHOICES strings, regardless of the current status; in particular
pending → cancelled succeeds (as the claim says) but so does every other
choice-to-choice transition. -/
theorem c2_no_transition_restriction :
    (∀ (a : Appointment) (req : String) (endT : Option Nat),
        ((appointment_update_status a req endT).isSome = true ↔ req ∈ STATUS_CHOICES))
      ∧ appointment_update_status ⟨2, 102, 36000, Status.pending, none⟩ "cancelled" none
          = some ⟨2, 102, 36000, Status.cancelled, none⟩ := by
  refine ⟨?_, rfl⟩
  intro a req endT
  unfold appointment_update_status parseStatus STATUS_CHOICES
  split_ifs with h1 h2 h3 h4 <;> simp_all

/-- C2, witness: a request out of a terminal status is accepted because the
requested value is a choice string. -/
theorem c2_choice_witness :
    (appointment_update_status ⟨3, 103, 32400, Status.cancelled, none⟩ "confirmed"
        none).isSome = true ↔ "confirmed" ∈ STATUS_CHOICES :=
  c2_no_transition_restriction.1 ⟨3, 103, 32400, Status.cancelled, none⟩ "confirmed" none

/-- C9, counterexample: the claim says a transition that sets endTime is
accepted only if endTime > startTime; here a transition setting
endTime = 09:00:00 on an appointment starting at 10:00:00 is accepted and
stored, so the invariant endTime > time does not hold for the stored row. -/
theorem c9_counterexample :
    appointment_update_status ⟨1, 101, 36000, Status.confirmed, none⟩ "completed"
        (some 32400)
      = some ⟨1, 101, 36000, Status.completed, some 32400⟩
      ∧ ¬ (36000 : Nat) < 32400 :=
  ⟨rfl, by decide⟩

/-- C9, amended: a status-transition request that sets endTime is accepted
whenever the requested status is a valid choice, with no comparison of
endTime against the start time: the submitted end time is stored as is
(the end_time > time check exists only in the dead file moldels2.py, which
is imported nowhere). -/
theorem c9_end_time_unchecked :
    ∀ (a : Appointment) (req : String) (st : Status) (endT : Option Nat),
      parseStatus req = some st →
      appointment_update_status a req endT = some ⟨a.doctor, a.date, a.time, st, endT⟩ := by
  intro a req st endT h
  rw [appointment_update_status, h]

/-- C9, witness: an end time earlier than the appointment's start time is
accepted and stored. -/
theorem c9_unchecked_witness :
    appointment_update_status ⟨2, 102, 36000, Status.pending, none⟩ "confirmed"
        (some 30000)
      = some ⟨2, 102, 36000, Status.confirmed, some 30000⟩ :=
  c9_end_time_unchecked ⟨2, 102, 36000, Status.pending, none⟩ "confirmed"
    Status.confirmed (some 30000) rfl

/-- C10: cancelling an appointment does not free its slot. If some
appointment in the store at the exact requested (doctor, date, time) has
status cancelled — even when no non-cancelled appointment occupies the
slot — booking validation rejects the request as a slot conflict, and the
unique_doctor_slot constraint membership test (slotTaken, which ignores
status) also flags the row. -/
theorem c10_cancelled_still_blocks :
    ∀ (store : List Appointment) (doctor date time today : Nat) (a : Appointment),
      a ∈ store → a.doctor = doctor → a.date = date → a.time = time →
      a.status = Status.cancelled →
      nonCancelledTaken store doctor date time = false →
      ¬ date < today →
      bookingClean store doctor date time today = Except.error BookingError.slotConflict
        ∧ slotTaken store doctor date time = true := by
  intro store doctor date time today a ha h1 h2 h3 _hst _hnc htoday
  have htaken : slotTaken store doctor date time = true := by
    rw [slotTaken, List.any_eq_true]
    refine ⟨a, ha, ?_⟩
    simp [h1, h2, h3]
  exact ⟨by rw [bookingClean, if_neg htoday, if_pos htaken], htaken⟩

/-- C10, witness: one cancelled appointment in the store blocks rebooking
of its exact slot. -/
theorem c10_blocks_witness :
    bookingClean [⟨7, 200, 30600, Status.cancelled, none⟩] 7 200 30600 199
        = Except.error BookingError.slotConflict
      ∧ slotTaken [⟨7, 200, 30600, Status.cancelled, none⟩] 7 200 30600 = true :=
  c10_cancelled_still_blocks [⟨7, 200, 30600, Status.cancelled, none⟩] 7 200 30600 199
    ⟨7, 200, 30600, Status.cancelled, none⟩ (by simp) rfl rfl rfl rfl (by decide)
    (by decide)

/-- C3, counterexample: the claim promises a returned count of
4 × businessDays × numberOfValidAnchors for EVERY availability
configuration; but for a configuration whose anchor list holds a
non-parsing entry the computation raises ValueError instead of returning
(the claimed value would have been 4 × businessDays × 1). -/
theorem c3_counterexample :
    (102 : Nat) ≤ 103
      ∧ calculate_available_slots ⟨[0, 1, 2, 3, 4, 5, 6], ["10:00:00", "oops"]⟩ 102 103
          = Except.error PyError.valueError
      ∧ validAnchorCount ["10:00:00", "oops"] = 1 :=
  ⟨by decide, rfl, by decide⟩

/-- C3, amended: for every availability configuration whose resolved anchor
list parses entirely as HH:MM:SS, and every date range with
startDate ≤ endDate, the computation returns (a non-negative count) exactly
4 × businessDays × numberOfAnchors, businessDays counting the dates of the
inclusive range whose weekday is in the resolved availability list. -/
theorem c3_formula_when_anchors_parse :
    ∀ (p : DoctorProfile) (startD endD : Nat),
      startD ≤ endD →
      (∀ s ∈ resolveSlots p.available_time_slots, (parseTimeHMS s).isSome) →
      calculate_available_slots p startD endD
        = Except.ok (4 * countBusinessDays (resolveDays p.available_days) startD endD
            * (resolveSlots p.available_time_slots).length) := by
  intro p startD endD _ hval
  rw [calculate_available_slots, slotLoop_ok _ _ _ hval, Nat.zero_add]

/-- C3, witness: two valid anchors over a seven-day range with the default
weekday set. -/
theorem c3_formula_witness :
    calculate_available_slots ⟨[], ["10:00:00", "14:00:00"]⟩ 101 107
      = Except.ok (4 * countBusinessDays (resolveDays []) 101 107
          * (resolveSlots ["10:00:00", "14:00:00"]).length) :=
  c3_formula_when_anchors_parse ⟨[], ["10:00:00", "14:00:00"]⟩ 101 107 (by decide)
    (by decide)

/-- C4: the claim is right about the intent — the spec twice declares that
malformed anchor entries must be skipped, never fatal — but the code's
fallback only guards the JSON decode of the whole field: the per-entry
datetime.strptime call is unguarded, so the availability list
["09:00:00", "not-a-time"] raises ValueError instead of degrading to the
one valid anchor. -/
theorem c4_malformed_anchor_crash :
    calculate_available_slots ⟨[], ["09:00:00", "not-a-time"]⟩ 101 101
        = Except.error PyError.valueError
      ∧ validAnchorCount ["09:00:00", "not-a-time"] = 1 :=
  ⟨rfl, by decide⟩

/-- C7, counterexample: the claim says an inverted range (startDate >
endDate) fails with a range error; the source has no range validation at
all — the date loop simply never runs and the count 0 is returned. -/
theorem c7_counterexample :
    (9 : Nat) < 10
      ∧ calculate_available_slots ⟨[], ["09:00:00"]⟩ 10 9 = Except.ok 0 :=
  ⟨by decide, rfl⟩

/-- C7, amended: for every date range with startDate > endDate (and a fully
parsing resolved anchor list, without which the computation raises), the
computation returns the count 0: businessDays is 0, so every anchor
contributes nothing. No error of any kind is raised. -/
theorem c7_inverted_range_returns_zero :
    ∀ (p : DoctorProfile) (startD endD : Nat),
      endD < startD →
      (∀ s ∈ resolveSlots p.available_time_slots, (parseTimeHMS s).isSome) →
      calculate_available_slots p startD endD = Except.ok 0 := by
  intro p startD endD hlt hval
  rw [calculate_available_slots, slotLoop_ok _ _ _ hval]
  have hbd : countBusinessDays (resolveDays p.available_days) startD endD = 0 := by
    rw [countBusinessDays]
    have h0 : endD + 1 - startD = 0 := by omega
    rw [h0]
    rfl
  rw [hbd]
  norm_num

/-- C7, witness: an inverted range over a valid configuration yields the
count 0. -/
theorem c7_zero_witness :
    calculate_available_slots ⟨[1, 2], ["09:00:00"]⟩ 10 9 = Except.ok 0 :=
  c7_inverted_range_returns_zero ⟨[1, 2], ["09:00:00"]⟩ 10 9 (by decide) (by decide)

/-- C5, counterexample: the source formats candidates with strftime("%H:%M"),
not HH:MM:SS. At the claim's own example input — bounds 09:00:00 to
11:00:00, duration 30, booked {"09:30:00"} — the booked entry (written in
the claim's HH:MM:SS form) never matches any formatted candidate, so all
four slots are returned in "%H:%M" form rather than the claimed
three-element HH:MM:SS list. -/
theorem c5_counterexample :
    get_available_time_slots 32400 39600 30 ["09:30:00"] 10
        = some ["09:00", "09:30", "10:00", "10:30"]
      ∧ ["09:00", "09:30", "10:00", "10:30"] ≠ ["09:00:00", "10:00:00", "10:30:00"] :=
  ⟨rfl, by decide⟩

/-- C5, amended: whenever the run exits, it returns — in chronological
order — exactly the candidates startTime + k × slotDurationMinutes that are
strictly before endTime and whose "%H:%M"-formatted value is not in
bookedStartTimes; in particular with bounds 09:00:00 to 11:00:00 and
duration 30 it returns ["09:00", "09:30", "10:00", "10:30"] when nothing
is booked and ["09:00", "10:00", "10:30"] when "09:30" is booked. -/
theorem c5_slots_characterization :
    (∀ (startS endS dur : Int) (booked : List String) (fuel : Nat) (l : List String),
        get_available_time_slots startS endS dur booked fuel = some l →
        ∃ n, (∀ i, i < n → slotTimeSec startS (60 * dur) i < endS) ∧
          endS ≤ slotTimeSec startS (60 * dur) n ∧
          l = ((List.range n).map fun i =>
              fmtHM (slotTimeSec startS (60 * dur) i).toNat).filter
                fun t => !booked.contains t)
      ∧ get_available_time_slots 32400 39600 30 [] 10
          = some ["09:00", "09:30", "10:00", "10:30"]
      ∧ get_available_time_slots 32400 39600 30 ["09:30"] 10
          = some ["09:00", "10:00", "10:30"] := by
  refine ⟨?_, rfl, rfl⟩
  intro startS endS dur booked fuel l h
  obtain ⟨n, h1, h2, h3⟩ := gatsRun_spec startS endS (60 * dur) booked fuel 0 [] l h
  refine ⟨n, ?_, ?_, ?_⟩
  · intro i hi
    simpa using h1 i hi
  · simpa using h2
  · simpa using h3

/-- C5, witness: the characterization applied to the unbooked example run. -/
theorem c5_characterization_witness :
    ∃ n, (∀ i, i < n → slotTimeSec 32400 (60 * 30) i < 39600) ∧
      39600 ≤ slotTimeSec 32400 (60 * 30) n ∧
      ["09:00", "09:30", "10:00", "10:30"]
        = ((List.range n).map fun i => fmtHM (slotTimeSec 32400 (60 * 30) i).toNat).filter
            fun t => !([] : List String).contains t :=
  c5_slots_characterization.1 32400 39600 30 [] 10
    ["09:00", "09:30", "10:00", "10:30"] rfl

/-- C6, counterexample: the claim asserts termination for EVERY positive
duration, but a duration of 1440 minutes (a whole day) keeps the candidate
time-of-day constant at 09:00, forever strictly before the 10:00 bound:
the loop never exits, and every fuel bound is exhausted. -/
theorem c6_counterexample :
    (0 : Int) < 1440
      ∧ ¬ loopEventuallyExits 32400 36000 (60 * 1440)
      ∧ get_available_time_slots 32400 36000 1440 [] 100 = none := by
  refine ⟨by decide, ?_, rfl⟩
  rintro ⟨k, hk⟩
  rw [slotTimeSec] at hk
  have h60 : (60 : Int) * 1440 = 86400 := by norm_num
  rw [h60, Int.add_mul_emod_self] at hk
  have : (32400 : Int) % 86400 = 32400 := by decide
  omega

/-- C6, amended: the candidate loop does terminate for every pair of
time-of-day bounds and every positive duration whose step does not
overjump the end-of-day window, i.e. whenever
60 × slotDurationMinutes ≤ 86400 − endTimeSeconds: some fuel makes the run
return a list. (Durations whose step exceeds that window, such as 1440
minutes, can cycle below endTime forever.) -/
theorem c6_terminates_within_window :
    ∀ (startS endS dur : Int) (booked : List String),
      0 ≤ startS → startS < 86400 → 0 < dur → 60 * dur + endS ≤ 86400 →
      ∃ fuel l, get_available_time_slots startS endS dur booked fuel = some l := by
  intro startS endS dur booked h0 h1 hd hw
  have hs1 : (1 : Int) ≤ 60 * dur := by omega
  rcases le_or_lt endS startS with hle | hlt
  · obtain ⟨l, hl⟩ := gatsRun_some_of_exit startS endS (60 * dur) booked 0 0 [] (by
      rw [Nat.add_zero, slotTimeSec]
      push_cast
      rw [zero_mul, add_zero, Int.emod_eq_of_lt h0 h1]
      exact hle)
    exact ⟨1, l, hl⟩
  · have hex : ∃ k : Nat, endS ≤ startS + (k : Int) * (60 * dur) := by
      refine ⟨endS.toNat, ?_⟩
      have ht : endS ≤ (endS.toNat : Int) := Int.self_le_toNat endS
      have hmul : (endS.toNat : Int) * 1 ≤ (endS.toNat : Int) * (60 * dur) :=
        mul_le_mul_of_nonneg_left hs1 (by positivity)
      linarith
    cases hNz : Nat.find hex with
    | zero =>
        have hspec := Nat.find_spec hex
        rw [hNz] at hspec
        push_cast at hspec
        omega
    | succ m =>
        have hspec := Nat.find_spec hex
        rw [hNz] at hspec
        have hmin : ¬ endS ≤ startS + (m : Int) * (60 * dur) :=
          Nat.find_min hex (by omega)
        push_neg at hmin
        have hv0 : 0 ≤ startS + ((m + 1 : Nat) : Int) * (60 * dur) := by positivity
        have hv86 : startS + ((m + 1 : Nat) : Int) * (60 * dur) < 86400 := by
          push_cast
          push_cast at hspec
          nlinarith
        obtain ⟨l, hl⟩ := gatsRun_some_of_exit startS endS (60 * dur) booked (m + 1) 0 [] (by
          rw [Nat.zero_add, slotTimeSec, Int.emod_eq_of_lt hv0 hv86]
          exact hspec)
        exact ⟨m + 2, l, hl⟩

/-- C6, witness: a 30-minute duration between 09:00 and 10:00 terminates. -/
theorem c6_window_witness :
    ∃ fuel l, get_available_time_slots 32400 36000 30 [] fuel = some l :=
  c6_terminates_within_window 32400 36000 30 [] (by decide) (by decide) (by decide)
    (by decide)

/-- C8, counterexample: the claim says every call with a non-positive
duration fails with a duration error; the source validates nothing. With
duration −30 the loop walks backwards from 09:00, wraps past midnight
after nineteen candidates and exits, returning a list — no error, and a
sequence is produced. -/
theorem c8_counterexample :
    (-30 : Int) ≤ 0
      ∧ get_available_time_slots 32400 39600 (-30) [] 25
          = some ["09:00", "08:30", "08:00", "07:30", "07:00", "06:30", "06:00",
              "05:30", "05:00", "04:30", "04:00", "03:30", "03:00", "02:30",
              "02:00", "01:30", "01:00", "00:30", "00:00"] :=
  ⟨by decide, rfl⟩

/-- C8, amended: no duration validation is performed and no duration error
exists. A negative duration can return a backwards list (see the
counterexample), and duration 0 with startTime strictly before endTime
never terminates: every fuel bound is exhausted. -/
theorem c8_no_duration_validation :
    ∀ (startS endS : Int) (booked : List String),
      0 ≤ startS → startS < 86400 → startS < endS →
      ∀ fuel, get_available_time_slots startS endS 0 booked fuel = none := by
  intro startS endS booked h0 h1 hlt fuel
  rw [get_available_time_slots]
  apply gatsRun_none
  intro k
  rw [slotTimeSec]
  have hz : (k : Int) * (60 * 0) = 0 := by ring
  rw [hz, add_zero, Int.emod_eq_of_lt h0 h1]
  exact hlt

/-- C8, witness: duration 0 between 09:00 and 11:00 yields no value at
fuel 7 (nor at any other fuel). -/
theorem c8_zero_duration_witness :
    get_available_time_slots 32400 39600 0 [] 7 = none :=
  c8_no_duration_validation 32400 39600 [] (by decide) (by decide) (by decide) 7

end MediTrack
